import Mathlib

/-!
# Kubecheck rule-evaluation engine: a shallow embedding

This file embeds the Go rule-evaluation core of the Kubecheck repository
(`cmd/kubecheck/engine.go`, `config.go`, `reporter.go`, `main.go`) in Lean 4
and proves the specification claims about it.

Modelling choices:
* Go `string` is modelled as `List Char` (`Str`), so that `strings.Split`,
  `strings.Contains` and `strings.ReplaceAll` become structurally recursive
  functions amenable to induction.
* Go's dynamic `map[string]interface{}` values (decoded YAML) are modelled as
  a tagged value tree `YamlVal`; a Go type assertion `v.(T)` becomes a partial
  projection `asMap` / `asSeq` / `asStr` / `asBool` / `asInt` returning `Option`.
* Go nil-able pointers (`*Resources`, `*SecurityContext`, …) become `Option`.
* I/O (printing, file reading) is dropped; only the returned values of the
  functions are modelled.
-/

/-- Go `string`, modelled as a list of characters. -/
abbrev Str := List Char

/-- Embed a Lean string literal as a `Str`. -/
def str (s : String) : Str := s.data

/-- Go `strings.Contains(s, ":")`: the image/condition strings are only ever
searched for the single character `:`. -/
def containsColon : Str → Bool
  | [] => false
  | c :: cs => c == ':' || containsColon cs

/-- Go `strings.Split(s, ":")` (single-character separator): split at every
occurrence of `:`; always returns at least one (possibly empty) part. -/
def splitColon : Str → List Str
  | [] => [[]]
  | c :: cs =>
    let rest := splitColon cs
    if c == ':' then [] :: rest
    else (c :: rest.headD []) :: rest.tail

/-- Rejoin parts with `:` separators (inverse direction of `splitColon`;
used only to state the spec's "everything after the first colon" reading). -/
def joinColon : List Str → Str
  | [] => []
  | [p] => p
  | p :: ps => p ++ ':' :: joinColon ps

/-- Go `strings.ReplaceAll` worker, structural in the subject string.
`skip` counts characters still to copy out verbatim after a replacement
(so matches never overlap, as in Go's leftmost non-overlapping search). -/
def replaceAllGo (pat rep : Str) : Nat → Str → Str
  | _, [] => []
  | n + 1, _ :: cs => replaceAllGo pat rep n cs
  | 0, c :: cs =>
    if pat ≠ [] ∧ pat.isPrefixOf (c :: cs) then
      rep ++ replaceAllGo pat rep (pat.length - 1) cs
    else
      c :: replaceAllGo pat rep 0 cs

/-- Go `strings.ReplaceAll(s, pat, rep)` for a non-empty pattern (the engine
only ever replaces the literal token `{container}`, which is non-empty). -/
def replaceAll (pat rep s : Str) : Str := replaceAllGo pat rep 0 s

/-- Dynamic YAML value: the shapes `map[string]interface{}` can take after
decoding (string, integer, boolean, sequence, mapping, anything else). -/
inductive YamlVal where
  | vstr : Str → YamlVal
  | vint : Int → YamlVal
  | vbool : Bool → YamlVal
  | vseq : List YamlVal → YamlVal
  | vmap : List (Str × YamlVal) → YamlVal
  | vnull : YamlVal

/-- A decoded Go `map[string]interface{}` (keys unique in Go; first match). -/
abbrev YamlMap := List (Str × YamlVal)

/-- Go map indexing `m[k]`: the stored value, or absent. -/
def mapLookup : YamlMap → Str → Option YamlVal
  | [], _ => none
  | (k', v) :: rest, k => if k' = k then some v else mapLookup rest k

/-- Go type assertion `v.(map[string]interface{})` on an optional value. -/
def asMap : Option YamlVal → Option YamlMap
  | some (YamlVal.vmap m) => some m
  | _ => none

/-- Go type assertion `v.([]interface{})` on an optional value. -/
def asSeq : Option YamlVal → Option (List YamlVal)
  | some (YamlVal.vseq l) => some l
  | _ => none

/-- Go type assertion `v.(string)` on an optional value. -/
def asStr : Option YamlVal → Option Str
  | some (YamlVal.vstr s) => some s
  | _ => none

/-- Go type assertion `v.(bool)` on an optional value. -/
def asBool : Option YamlVal → Option Bool
  | some (YamlVal.vbool b) => some b
  | _ => none

/-- Go type assertion `v.(int)` on an optional value. -/
def asInt : Option YamlVal → Option Int
  | some (YamlVal.vint n) => some n
  | _ => none

/-- Struct `K8sResource` (parser.go): a decoded document. Nil Go maps are `none`. -/
structure K8sResource where
  APIVersion : Str
  Kind : Str
  Metadata : Option YamlMap
  Spec : Option YamlMap
  Data : Option YamlMap

/-- Struct `ResourceSpec` (engine.go): CPU and memory strings. -/
structure ResourceSpec where
  CPU : Str
  Memory : Str
deriving DecidableEq

/-- Struct `Resources` (engine.go): requests/limits, each a nil-able pointer. -/
structure Resources where
  Requests : Option ResourceSpec
  Limits : Option ResourceSpec
deriving DecidableEq

/-- Struct `SecurityContext` (engine.go): nil-able `runAsNonRoot` / `runAsUser`. -/
structure SecurityContext where
  RunAsNonRoot : Option Bool
  RunAsUser : Option Int
deriving DecidableEq

/-- Struct `Container` (engine.go): one validatable unit. -/
structure Container where
  Name : Str
  Image : Str
  Resources : Option Resources
  SecurityContext : Option SecurityContext
deriving DecidableEq

/-- Struct `Rule` (config.go): one declarative policy rule. -/
structure Rule where
  Name : Str
  Description : Str
  Severity : Str
  Type' : Str
  Conditions : List Str
  Message : Str
  Help : Str
deriving DecidableEq

/-- Struct `RuleConfig` (config.go): an ordered rule set. -/
structure RuleConfig where
  Rules : List Rule
deriving DecidableEq

/-- Struct `Violation` (reporter.go): one rule firing against one container. -/
structure Violation where
  Severity : Str
  Message : Str
  Rule : Str
deriving DecidableEq

/-- Function `getStringValue` (engine.go): string value of a key, `""` if absent or
of the wrong type. -/
def getStringValue (m : YamlMap) (key : Str) : Str :=
  match asStr (mapLookup m key) with
  | some val => val
  | none => []

/-- Function `parseSecurityContext` (engine.go): each field set only when the value
has the asserted Go type. -/
def parseSecurityContext (securityMap : YamlMap) : SecurityContext :=
  { RunAsNonRoot := asBool (mapLookup securityMap (str "runAsNonRoot"))
    RunAsUser := asInt (mapLookup securityMap (str "runAsUser")) }

/-- Function `parseResources` (engine.go): requests/limits only when present as maps;
the `Resources` record itself is always produced. -/
def parseResources (resourcesMap : YamlMap) : Resources :=
  { Requests :=
      (asMap (mapLookup resourcesMap (str "requests"))).map (fun requestsMap =>
        { CPU := getStringValue requestsMap (str "cpu")
          Memory := getStringValue requestsMap (str "memory") })
    Limits :=
      (asMap (mapLookup resourcesMap (str "limits"))).map (fun limitsMap =>
        { CPU := getStringValue limitsMap (str "cpu")
          Memory := getStringValue limitsMap (str "memory") }) }

/-- Function `parseContainers` (engine.go): decode each sequence element that is a
mapping; non-mapping elements are skipped (`continue`). -/
def parseContainers : List YamlVal → List Container
  | [] => []
  | c :: rest =>
    match c with
    | YamlVal.vmap containerMap =>
      { Name := getStringValue containerMap (str "name")
        Image := getStringValue containerMap (str "image")
        Resources := (asMap (mapLookup containerMap (str "resources"))).map parseResources
        SecurityContext :=
          (asMap (mapLookup containerMap (str "securityContext"))).map parseSecurityContext }
        :: parseContainers rest
    | _ => parseContainers rest

/-- The second probe of `extractContainersFromResource` (engine.go,
lines 178-183): `spec.containers`, for direct pod-shaped documents. -/
def extractFromSpecContainers (spec : YamlMap) : List Container :=
  match asSeq (mapLookup spec (str "containers")) with
  | some containerList => parseContainers containerList
  | none => []

/-- Function `extractContainersFromResource` (engine.go): try
`spec.template.spec.containers`; if that chain of type assertions fails at
any level, fall through to `spec.containers`. -/
def extractContainersFromResource (resource : K8sResource) : List Container :=
  match resource.Spec with
  | none => []
  | some spec =>
    match asMap (mapLookup spec (str "template")) with
    | some template =>
      match asMap (mapLookup template (str "spec")) with
      | some tspec =>
        match asSeq (mapLookup tspec (str "containers")) with
        | some containerList => parseContainers containerList
        | none => extractFromSpecContainers spec
      | none => extractFromSpecContainers spec
    | none => extractFromSpecContainers spec

/-- Function `imageTagEquals` (engine.go): untagged images count as `:latest`;
otherwise the image is split on `:` and matches only with exactly two parts
whose second equals the tag. -/
def imageTagEquals (image tag : Str) : Bool :=
  if containsColon image = false then
    tag = str "latest"
  else
    let parts := splitColon image
    parts.length = 2 && parts.getD 1 [] = tag

/-- Function `imageTagMissing` (engine.go): the image has no `:` at all. -/
def imageTagMissing (image : Str) : Bool :=
  ! containsColon image

/-- Function `missingCPURequests` (engine.go). -/
def missingCPURequests (c : Container) : Bool :=
  match c.Resources with
  | none => true
  | some res =>
    match res.Requests with
    | none => true
    | some req => req.CPU = ([] : Str)

/-- Function `missingMemoryRequests` (engine.go). -/
def missingMemoryRequests (c : Container) : Bool :=
  match c.Resources with
  | none => true
  | some res =>
    match res.Requests with
    | none => true
    | some req => req.Memory = ([] : Str)

/-- Function `missingCPULimits` (engine.go). -/
def missingCPULimits (c : Container) : Bool :=
  match c.Resources with
  | none => true
  | some res =>
    match res.Limits with
    | none => true
    | some lim => lim.CPU = ([] : Str)

/-- Function `missingMemoryLimits` (engine.go). -/
def missingMemoryLimits (c : Container) : Bool :=
  match c.Resources with
  | none => true
  | some res =>
    match res.Limits with
    | none => true
    | some lim => lim.Memory = ([] : Str)

/-- Function `missingSecurityContext` (engine.go): the pointer is nil. -/
def missingSecurityContext (c : Container) : Bool :=
  c.SecurityContext = none

/-- Function `runAsNonRootFalse` (engine.go): `runAsNonRoot` present and false. -/
def runAsNonRootFalse (c : Container) : Bool :=
  match c.SecurityContext with
  | none => false
  | some sc =>
    match sc.RunAsNonRoot with
    | none => false
    | some b => !b

/-- Function `runAsUserZero` (engine.go): `runAsUser` present and zero. -/
def runAsUserZero (c : Container) : Bool :=
  match c.SecurityContext with
  | none => false
  | some sc =>
    match sc.RunAsUser with
    | none => false
    | some n => n = 0

/-- The `switch conditionType` body of `checkCondition` (engine.go,
lines 68-89), factored out so the two parsing readings in §4.3 of the spec
can be compared over the same dispatch. -/
def dispatchCondition (conditionType conditionValue : Str) (c : Container) : Bool :=
  if conditionType = str "image_tag_equals" then imageTagEquals c.Image conditionValue
  else if conditionType = str "image_tag_missing" then imageTagMissing c.Image
  else if conditionType = str "missing_cpu_requests" then missingCPURequests c
  else if conditionType = str "missing_memory_requests" then missingMemoryRequests c
  else if conditionType = str "missing_cpu_limits" then missingCPULimits c
  else if conditionType = str "missing_memory_limits" then missingMemoryLimits c
  else if conditionType = str "missing_security_context" then missingSecurityContext c
  else if conditionType = str "run_as_non_root_false" then runAsNonRootFalse c
  else if conditionType = str "run_as_user_zero" then runAsUserZero c
  else false

/-- Function `checkCondition` (engine.go): `parts := strings.Split(condition, ":")`,
`conditionType := parts[0]`, `conditionValue := parts[1]` when
`len(parts) > 1`, else `""`. -/
def checkCondition (condition : Str) (c : Container) : Bool :=
  let parts := splitColon condition
  dispatchCondition (parts.getD 0 []) (parts.getD 1 []) c

/-- The token replaced in rule messages (engine.go, line 44). -/
def containerToken : Str := str "{container}"

/-- The `Violation` built by `evaluateRule` (engine.go, lines 44-50). -/
def ruleViolation (rule : Rule) (container : Container) : Violation :=
  { Severity := rule.Severity
    Message := replaceAll containerToken container.Name rule.Message
    Rule := rule.Name }

/-- The condition loop of `evaluateRule` (engine.go, lines 41-54):
first true condition appends the violation and breaks. -/
def evaluateRuleConds (rule : Rule) (container : Container) : List Str → List Violation
  | [] => []
  | condition :: rest =>
    if checkCondition condition container then [ruleViolation rule container]
    else evaluateRuleConds rule container rest

/-- Function `evaluateRule` (engine.go): one rule against one container. -/
def evaluateRule (rule : Rule) (container : Container) : List Violation :=
  evaluateRuleConds rule container rule.Conditions

/-- Function `EvaluateResource` (engine.go): for every rule, for every extracted
container, append that pair's violations. -/
def EvaluateResource (config : RuleConfig) (resource : K8sResource) : List Violation :=
  let containers := extractContainersFromResource resource
  config.Rules.foldl
    (fun violations rule =>
      containers.foldl
        (fun violations container => violations ++ evaluateRule rule container)
        violations)
    []

/-- Function `GetDefaultConfig` (config.go): the built-in default rule set. -/
def GetDefaultConfig : RuleConfig :=
  { Rules :=
    [ { Name := str "no-latest-image"
        Description := str "Disallow latest image tags"
        Severity := str "ERROR"
        Type' := str "image"
        Conditions := [str "image_tag_equals:latest", str "image_tag_missing"]
        Message := str "Container '{container}' uses 'latest' image tag"
        Help := str "use a specific version or digest" }
    , { Name := str "require-resource-requests"
        Description := str "Require CPU and memory requests"
        Severity := str "WARN"
        Type' := str "resources"
        Conditions := [str "missing_cpu_requests", str "missing_memory_requests"]
        Message := str "Container '{container}' missing resource requests"
        Help := str "set requests.cpu and requests.memory" }
    , { Name := str "require-resource-limits"
        Description := str "Require CPU and memory limits"
        Severity := str "WARN"
        Type' := str "resources"
        Conditions := [str "missing_cpu_limits", str "missing_memory_limits"]
        Message := str "Container '{container}' missing resource limits"
        Help := str "set limits.cpu and limits.memory" }
    , { Name := str "no-root-containers"
        Description := str "Containers must not run as root"
        Severity := str "ERROR"
        Type' := str "security"
        Conditions :=
          [str "missing_security_context", str "run_as_non_root_false", str "run_as_user_zero"]
        Message := str "Container '{container}' running as root or missing securityContext"
        Help := str "set runAsNonRoot: true and runAsUser to non-zero value" } ] }

/-- The rule-configuration selection of `main` (main.go, lines 41-87),
with the file-system probing abstracted: `external` is the configuration
loaded from `-config` or a default path when one was supplied and found;
otherwise the built-in defaults are used. -/
def selectRuleConfig (external : Option RuleConfig) : RuleConfig :=
  match external with
  | some cfg => cfg
  | none => GetDefaultConfig

/-- Constant `ExitOK` (main.go). -/
def ExitOK : Nat := 0

/-- Constant `ExitWarn` (main.go). -/
def ExitWarn : Nat := 1

/-- Constant `ExitError` (main.go). -/
def ExitError : Nat := 2

/-- The severity returned by `Reporter.ReportViolations` (reporter.go):
empty list is OK; otherwise ERROR if any violation is ERROR, else WARN if
any is WARN, else OK. Printing and the reporter's counters are I/O and
omitted; only the returned severity is modelled. -/
def ReportViolations (violations : List Violation) : Nat :=
  if violations = [] then ExitOK
  else
    let hasError := violations.any (fun v => v.Severity = str "ERROR")
    let hasWarn := violations.any (fun v => v.Severity = str "WARN")
    if hasError then ExitError
    else if hasWarn then ExitWarn
    else ExitOK

/-- The update step of `main`'s severity loop (main.go, lines 139-141):
`if severity > maxSeverity { maxSeverity = severity }`. -/
def sevStep (maxSeverity severity : Nat) : Nat :=
  if severity > maxSeverity then severity else maxSeverity

/-- Run-level severity of `main` (main.go, lines 116-146): fold the update
step over the per-document severities, starting from `ExitOK`. -/
def runSeverity (docSeverities : List Nat) : Nat :=
  docSeverities.foldl sevStep ExitOK

/-- Exit with the accumulated severity in `main`: `os.Exit(maxSeverity)`. -/
def processExitCode (docSeverities : List Nat) : Nat :=
  runSeverity docSeverities

/-! ## String lemmas -/

theorem splitColon_ne_nil (s : Str) : splitColon s ≠ [] := by
  cases s with
  | nil => simp [splitColon]
  | cons c cs =>
    simp only [splitColon]
    split
    · simp
    · simp

theorem containsColon_eq_true_iff (s : Str) : containsColon s = true ↔ ':' ∈ s := by
  induction s with
  | nil => simp [containsColon]
  | cons c cs ih =>
    simp only [containsColon, Bool.or_eq_true, beq_iff_eq, List.mem_cons, ih]
    constructor
    · rintro (h | h)
      · exact Or.inl h.symm
      · exact Or.inr h
    · rintro (h | h)
      · exact Or.inl h.symm
      · exact Or.inr h

theorem containsColon_eq_false_iff (s : Str) : containsColon s = false ↔ ':' ∉ s := by
  rw [← containsColon_eq_true_iff]
  cases containsColon s <;> simp

theorem splitColon_length_one_iff (s : Str) :
    (splitColon s).length = 1 ↔ containsColon s = false := by
  induction s with
  | nil => simp [splitColon, containsColon]
  | cons c cs ih =>
    simp only [splitColon, containsColon]
    by_cases hc : (c == ':') = true
    · have hlen : 1 ≤ (splitColon cs).length :=
        List.length_pos.mpr (splitColon_ne_nil cs)
      simp only [hc, if_true, Bool.true_or, List.length_cons]
      constructor
      · intro h
        omega
      · intro h
        cases h
    · have hne := splitColon_ne_nil cs
      rcases hcs : splitColon cs with _ | ⟨p, ps⟩
      · exact absurd hcs hne
      · rw [hcs] at ih
        simp only [Bool.not_eq_true] at hc
        simp only [hc, Bool.false_eq_true, if_false, Bool.false_or, List.headD_cons,
          List.tail_cons, List.length_cons] at *
        exact ih

theorem splitColon_of_not_mem (s : Str) (h : ':' ∉ s) : splitColon s = [s] := by
  induction s with
  | nil => simp [splitColon]
  | cons c cs ih =>
    simp only [List.mem_cons, not_or] at h
    have hc : (c == ':') = false := by
      simp only [beq_eq_false_iff_ne, ne_eq]
      exact fun hcc => h.1 hcc.symm
    simp only [splitColon, hc, Bool.false_eq_true, if_false]
    rw [ih h.2]
    simp

theorem splitColon_append_colon (ia rest : Str) (h : ':' ∉ ia) :
    splitColon (ia ++ ':' :: rest) = ia :: splitColon rest := by
  induction ia with
  | nil => simp [splitColon]
  | cons c cs ih =>
    simp only [List.mem_cons, not_or] at h
    have hc : (c == ':') = false := by
      simp only [beq_eq_false_iff_ne, ne_eq]
      exact fun hcc => h.1 hcc.symm
    have ihcs := ih h.2
    simp only [List.cons_append, splitColon, List.append_eq, hc, Bool.false_eq_true,
      if_false, ihcs, List.headD_cons, List.tail_cons]

/-! ## Claim C4: image tag conditions -/

/-- C4: `image_tag_equals` is true exactly when splitting the image on `:`
yields one part and the parameter equals "latest", or exactly two parts whose
second equals the parameter; with three or more parts it is false; and
`image_tag_missing` is true exactly when the image contains no `:` at all. -/
theorem image_tag_condition_semantics (image tag : Str) :
    (imageTagEquals image tag = true ↔
       (((splitColon image).length = 1 ∧ tag = str "latest") ∨
        ((splitColon image).length = 2 ∧ (splitColon image).getD 1 [] = tag))) ∧
    (3 ≤ (splitColon image).length → imageTagEquals image tag = false) ∧
    (imageTagMissing image = true ↔ ':' ∉ image) := by
  have hmiss : imageTagMissing image = true ↔ ':' ∉ image := by
    rw [imageTagMissing, Bool.not_eq_eq_eq_not, Bool.not_true, containsColon_eq_false_iff]
  by_cases hcc : containsColon image = false
  · have hone : (splitColon image).length = 1 := (splitColon_length_one_iff image).mpr hcc
    refine ⟨?_, ?_, hmiss⟩
    · simp only [imageTagEquals]
      rw [if_pos hcc]
      simp only [decide_eq_true_eq]
      constructor
      · intro h
        exact Or.inl ⟨hone, h⟩
      · rintro (⟨-, h⟩ | ⟨h2, -⟩)
        · exact h
        · omega
    · intro h3
      omega
  · have hone : ¬ (splitColon image).length = 1 := by
      rw [splitColon_length_one_iff]
      exact hcc
    refine ⟨?_, ?_, hmiss⟩
    · simp only [imageTagEquals]
      rw [if_neg hcc]
      simp only [Bool.and_eq_true, decide_eq_true_eq]
      constructor
      · intro h
        exact Or.inr h
      · rintro (⟨h1, -⟩ | h)
        · exact absurd h1 hone
        · exact h
    · intro h3
      simp only [imageTagEquals]
      rw [if_neg hcc]
      have h2 : decide ((splitColon image).length = 2) = false := by
        simp only [decide_eq_false_iff_not]
        omega
      rw [h2, Bool.false_and]

/-- C4 witness: concrete evaluations discharging the hypothesis of the
three-or-more-parts conjunct at `image = "host:5000/app:v1"`. -/
theorem image_tag_condition_semantics_witness :
    imageTagEquals (str "host:5000/app:v1") (str "v1") = false ∧
    3 ≤ (splitColon (str "host:5000/app:v1")).length ∧
    (imageTagEquals (str "nginx") (str "latest") = true ↔
       (((splitColon (str "nginx")).length = 1 ∧ str "latest" = str "latest") ∨
        ((splitColon (str "nginx")).length = 2 ∧
          (splitColon (str "nginx")).getD 1 [] = str "latest"))) :=
  ⟨(image_tag_condition_semantics (str "host:5000/app:v1") (str "v1")).2.1 (by decide),
   by decide,
   (image_tag_condition_semantics (str "nginx") (str "latest")).1⟩

/-! ## Claim C1: at most one violation per (rule, container) pair -/

theorem evaluateRuleConds_length_le_one (rule : Rule) (c : Container) (conds : List Str) :
    (evaluateRuleConds rule c conds).length ≤ 1 := by
  induction conds with
  | nil => simp [evaluateRuleConds]
  | cons cond rest ih =>
    simp only [evaluateRuleConds]
    split
    · simp
    · exact ih

theorem evaluateRuleConds_first_match (rule : Rule) (c : Container)
    (pre : List Str) (cond : Str) (post : List Str)
    (hpre : ∀ c0 ∈ pre, checkCondition c0 c = false)
    (hcond : checkCondition cond c = true) :
    evaluateRuleConds rule c (pre ++ cond :: post) = [ruleViolation rule c] := by
  induction pre with
  | nil =>
    simp only [List.nil_append, evaluateRuleConds, hcond, if_true]
  | cons p ps ih =>
    have hp : checkCondition p c = false := hpre p (List.mem_cons_self p ps)
    simp only [List.cons_append, evaluateRuleConds, hp, Bool.false_eq_true, if_false]
    exact ih (fun c0 hc0 => hpre c0 (List.mem_cons_of_mem p hc0))

/-- C1: `evaluateRule` emits at most one Violation for a (rule, container)
pair; conditions are checked in declaration order and the first condition
that evaluates true produces the Violation and terminates the rule's
evaluation for that container, even if later conditions would also match. -/
theorem evaluateRule_at_most_one_violation (rule : Rule) (c : Container) :
    (evaluateRule rule c).length ≤ 1 ∧
    (∀ pre cond post,
      rule.Conditions = pre ++ cond :: post →
      (∀ c0 ∈ pre, checkCondition c0 c = false) →
      checkCondition cond c = true →
      evaluateRule rule c = [ruleViolation rule c]) := by
  constructor
  · exact evaluateRuleConds_length_le_one rule c rule.Conditions
  · intro pre cond post hdecomp hpre hcond
    rw [evaluateRule, hdecomp]
    exact evaluateRuleConds_first_match rule c pre cond post hpre hcond

/-- A rule with two conditions that both hold of `untaggedContainer`,
used to witness C1: an untagged image with no resource requests. -/
def doubleMatchRule : Rule :=
  { Name := str "double-match"
    Description := str "two conditions that both hold"
    Severity := str "ERROR"
    Type' := str "image"
    Conditions := [str "image_tag_missing", str "missing_cpu_requests"]
    Message := str "Container '{container}' matched"
    Help := [] }

/-- A container with an untagged image, no resources, no security context. -/
def untaggedContainer : Container :=
  { Name := str "web"
    Image := str "nginx"
    Resources := none
    SecurityContext := none }

/-- C1 witness: both conditions of `doubleMatchRule` hold of
`untaggedContainer`, yet exactly one Violation is produced. -/
theorem evaluateRule_at_most_one_violation_witness :
    (evaluateRule doubleMatchRule untaggedContainer).length ≤ 1 ∧
    checkCondition (str "image_tag_missing") untaggedContainer = true ∧
    checkCondition (str "missing_cpu_requests") untaggedContainer = true ∧
    evaluateRule doubleMatchRule untaggedContainer
      = [ruleViolation doubleMatchRule untaggedContainer] :=
  ⟨(evaluateRule_at_most_one_violation doubleMatchRule untaggedContainer).1,
   by decide,
   by decide,
   (evaluateRule_at_most_one_violation doubleMatchRule untaggedContainer).2
     [] (str "image_tag_missing") [str "missing_cpu_requests"] rfl
     (by intro c0 hc0; cases hc0) (by decide)⟩

/-! ## Claim C2: rule-major, container-minor output order -/

theorem foldl_append_join {α β : Type} (f : α → List β) :
    ∀ (l : List α) (acc : List β),
      l.foldl (fun a x => a ++ f x) acc = acc ++ (l.map f).flatten := by
  intro l
  induction l with
  | nil => intro acc; simp
  | cons x xs ih =>
    intro acc
    simp only [List.foldl_cons, List.map_cons, List.flatten_cons, ih, List.append_assoc]

theorem EvaluateResource_eq_join (config : RuleConfig) (resource : K8sResource) :
    EvaluateResource config resource
      = (config.Rules.map (fun rule =>
          ((extractContainersFromResource resource).map (evaluateRule rule)).flatten)).flatten := by
  rw [EvaluateResource]
  have hinner : ∀ (rule : Rule) (acc : List Violation),
      (extractContainersFromResource resource).foldl
        (fun violations container => violations ++ evaluateRule rule container) acc
      = acc ++ ((extractContainersFromResource resource).map (evaluateRule rule)).flatten :=
    fun rule acc => foldl_append_join (evaluateRule rule) _ acc
  calc config.Rules.foldl
        (fun violations rule =>
          (extractContainersFromResource resource).foldl
            (fun violations container => violations ++ evaluateRule rule container) violations)
        []
      = config.Rules.foldl
          (fun violations rule =>
            violations ++ ((extractContainersFromResource resource).map (evaluateRule rule)).flatten)
          [] := by
        congr 1
        funext violations rule
        exact hinner rule violations
    _ = [] ++ (config.Rules.map (fun rule =>
          ((extractContainersFromResource resource).map (evaluateRule rule)).flatten)).flatten :=
        foldl_append_join _ config.Rules []
    _ = _ := List.nil_append _

/-- C2: the Violation list of `EvaluateResource` is rule-major,
container-minor: it is the concatenation, over the rules in declaration
order, of each rule's violations over all extracted containers in extraction
order; hence for every split point all violations of earlier rules precede
all violations of later rules. -/
theorem EvaluateResource_rule_major (config : RuleConfig) (resource : K8sResource) (n : Nat) :
    EvaluateResource config resource
      = (config.Rules.map (fun rule =>
          ((extractContainersFromResource resource).map (evaluateRule rule)).flatten)).flatten ∧
    EvaluateResource config resource
      = EvaluateResource { Rules := config.Rules.take n } resource
        ++ EvaluateResource { Rules := config.Rules.drop n } resource := by
  refine ⟨EvaluateResource_eq_join config resource, ?_⟩
  rw [EvaluateResource_eq_join config resource,
    EvaluateResource_eq_join { Rules := config.Rules.take n } resource,
    EvaluateResource_eq_join { Rules := config.Rules.drop n } resource]
  rw [← List.flatten_append, ← List.map_append, List.take_append_drop]

/-! ## Claim C7: unrecognized condition identifiers -/

/-- The nine identifiers recognized by the `switch` in `checkCondition`. -/
def recognizedConditionTypes : List Str :=
  [ str "image_tag_equals"
  , str "image_tag_missing"
  , str "missing_cpu_requests"
  , str "missing_memory_requests"
  , str "missing_cpu_limits"
  , str "missing_memory_limits"
  , str "missing_security_context"
  , str "run_as_non_root_false"
  , str "run_as_user_zero" ]

theorem dispatchCondition_unknown (conditionType conditionValue : Str) (c : Container)
    (h : conditionType ∉ recognizedConditionTypes) :
    dispatchCondition conditionType conditionValue c = false := by
  simp only [recognizedConditionTypes, List.mem_cons, List.not_mem_nil, or_false, not_or] at h
  obtain ⟨h1, h2, h3, h4, h5, h6, h7, h8, h9⟩ := h
  rw [dispatchCondition, if_neg h1, if_neg h2, if_neg h3, if_neg h4, if_neg h5,
    if_neg h6, if_neg h7, if_neg h8, if_neg h9]

theorem evaluateRuleConds_all_false (rule : Rule) (c : Container) :
    ∀ conds : List Str, (∀ cond ∈ conds, checkCondition cond c = false) →
      evaluateRuleConds rule c conds = [] := by
  intro conds
  induction conds with
  | nil => intro _; rfl
  | cons cond rest ih =>
    intro h
    have hc : checkCondition cond c = false := h cond (List.mem_cons_self cond rest)
    simp only [evaluateRuleConds, hc, Bool.false_eq_true, if_false]
    exact ih (fun c0 hc0 => h c0 (List.mem_cons_of_mem cond hc0))

/-- C7: a condition expression whose identifier is not one of the nine
recognized identifiers evaluates to false for every container, without any
error; hence a rule all of whose conditions have unrecognized identifiers
never produces a Violation. -/
theorem unknown_condition_evaluates_false (c : Container) :
    (∀ cond : Str, (splitColon cond).getD 0 [] ∉ recognizedConditionTypes →
       checkCondition cond c = false) ∧
    (∀ rule : Rule,
       (∀ cond ∈ rule.Conditions, (splitColon cond).getD 0 [] ∉ recognizedConditionTypes) →
       evaluateRule rule c = []) := by
  have hone : ∀ cond : Str, (splitColon cond).getD 0 [] ∉ recognizedConditionTypes →
      checkCondition cond c = false := by
    intro cond h
    rw [checkCondition]
    exact dispatchCondition_unknown _ _ c h
  refine ⟨hone, ?_⟩
  intro rule h
  rw [evaluateRule]
  exact evaluateRuleConds_all_false rule c rule.Conditions
    (fun cond hc => hone cond (h cond hc))

/-- A rule whose every condition has an unrecognized identifier. -/
def unknownConditionsRule : Rule :=
  { Name := str "future-rule"
    Description := str "all conditions unrecognized"
    Severity := str "ERROR"
    Type' := str "future"
    Conditions := [str "frobnicate", str "image_digest_missing:sha256"]
    Message := str "Container '{container}' frobnicated"
    Help := [] }

/-- C7 witness: the unrecognized condition `"frobnicate"` evaluates to
false on a concrete container, and `unknownConditionsRule` produces no
Violation for it. -/
theorem unknown_condition_evaluates_false_witness :
    checkCondition (str "frobnicate") untaggedContainer = false ∧
    evaluateRule unknownConditionsRule untaggedContainer = [] :=
  ⟨(unknown_condition_evaluates_false untaggedContainer).1 (str "frobnicate") (by decide),
   (unknown_condition_evaluates_false untaggedContainer).2 unknownConditionsRule (by decide)⟩

/-! ## Claim C9: condition expression parsing -/

/-- The parsing of a condition expression as §4.3 of the spec words it:
split on the FIRST `:` only; the identifier is the part before, and the
parameter is the ENTIRE part after (which may itself contain `:`), compared
verbatim. Stated from the spec's words, to be compared with the source's
`checkCondition`. -/
def checkConditionSplitFirst (condition : Str) (c : Container) : Bool :=
  let parts := splitColon condition
  dispatchCondition (parts.getD 0 []) (joinColon parts.tail) c

/-- A condition expression whose parameter part contains a further colon. -/
def condMultiColon : Str := str "image_tag_equals:a:b"

/-- A container whose image tag is `a`, distinguishing the two readings of
`condMultiColon`. -/
def containerImgA : Container :=
  { Name := str "n"
    Image := str "img:a"
    Resources := none
    SecurityContext := none }

/-- C9 counterexample: on `image_tag_equals:a:b` the code compares the tag
against `"a"` (the segment between the first and second colon), not against
`"a:b"` (the entire part after the first colon) as the claim states: the
code fires on image `img:a` while the claimed parsing would not. -/
theorem checkCondition_split_first_counterexample :
    checkCondition condMultiColon containerImgA = true ∧
    checkConditionSplitFirst condMultiColon containerImgA = false ∧
    joinColon ((splitColon condMultiColon).tail) = str "a:b" := by
  refine ⟨by decide, by decide, by decide⟩

/-- C9 (amended): `checkCondition` splits the expression on every `:`; the
identifier is the first part and the parameter is the SECOND part only
(empty when there is no colon); segments after the second colon are
discarded, so `identifier:a:b` is interpreted with parameter `a`. -/
theorem checkCondition_parses_second_segment (ia a b : Str) (c : Container)
    (hia : ':' ∉ ia) (ha : ':' ∉ a) :
    checkCondition (ia ++ ':' :: (a ++ ':' :: b)) c = dispatchCondition ia a c ∧
    checkCondition (ia ++ ':' :: a) c = dispatchCondition ia a c ∧
    checkCondition ia c = dispatchCondition ia [] c := by
  refine ⟨?_, ?_, ?_⟩
  · rw [checkCondition]
    rw [splitColon_append_colon ia (a ++ ':' :: b) hia, splitColon_append_colon a b ha]
    rfl
  · rw [checkCondition]
    rw [splitColon_append_colon ia a hia, splitColon_of_not_mem a ha]
    rfl
  · rw [checkCondition]
    rw [splitColon_of_not_mem ia hia]
    rfl

/-- C9 witness: the amended parsing at the concrete expression
`image_tag_equals:a:b` — the parameter is `a`, so the condition holds of
`containerImgA` (image `img:a`). -/
theorem checkCondition_parses_second_segment_witness :
    checkCondition (str "image_tag_equals" ++ ':' :: (str "a" ++ ':' :: str "b"))
        containerImgA
      = dispatchCondition (str "image_tag_equals") (str "a") containerImgA ∧
    dispatchCondition (str "image_tag_equals") (str "a") containerImgA = true :=
  ⟨(checkCondition_parses_second_segment (str "image_tag_equals") (str "a") (str "b")
      containerImgA (by decide) (by decide)).1,
   by decide⟩

/-! ## Claim C3: extraction priority between the two container locations -/

/-- The full `spec.template.spec.containers` probe as an optional chain:
`some l` exactly when every step of the chain of type assertions in
`extractContainersFromResource` succeeds and the final value is a sequence. -/
def templateSpecContainers (resource : K8sResource) : Option (List YamlVal) :=
  resource.Spec.bind (fun spec =>
    (asMap (mapLookup spec (str "template"))).bind (fun template =>
      (asMap (mapLookup template (str "spec"))).bind (fun tspec =>
        asSeq (mapLookup tspec (str "containers")))))

/-- A resource whose spec has a `template` key (an empty mapping) AND a
direct `spec.containers` list with one container. -/
def resTemplateAndContainers : K8sResource :=
  { APIVersion := str "apps/v1"
    Kind := str "Deployment"
    Metadata := none
    Spec := some
      [ (str "template", YamlVal.vmap [])
      , (str "containers",
          YamlVal.vseq
            [ YamlVal.vmap
                [ (str "name", YamlVal.vstr (str "app"))
                , (str "image", YamlVal.vstr (str "nginx")) ] ]) ]
    Data := none }

/-- Like `resTemplateAndContainers` but without the `spec.containers` key:
the `template` value is identical. -/
def resTemplateOnly : K8sResource :=
  { APIVersion := str "apps/v1"
    Kind := str "Deployment"
    Metadata := none
    Spec := some [(str "template", YamlVal.vmap [])]
    Data := none }

/-- C3 counterexample: both resources carry a `template` key bound to the
same (empty-mapping) value, so under the claim their extraction results
would be determined solely by `spec.template.spec.containers` and hence
equal (and empty); but the code falls through to `spec.containers` and
extracts a container from `resTemplateAndContainers`. -/
theorem extract_fallback_despite_template_counterexample :
    asMap (resTemplateAndContainers.Spec.bind
        (fun spec => mapLookup spec (str "template"))) = some [] ∧
    asMap (resTemplateOnly.Spec.bind
        (fun spec => mapLookup spec (str "template"))) = some [] ∧
    extractContainersFromResource resTemplateAndContainers
      = [{ Name := str "app", Image := str "nginx",
           Resources := none, SecurityContext := none }] ∧
    extractContainersFromResource resTemplateOnly = [] :=
  ⟨rfl, rfl, by decide, rfl⟩

/-- C3 (amended): the fallback `spec.containers` is consulted whenever the
`spec.template.spec.containers` chain does not yield a sequence — also when
a `template` key is present but is not a mapping, lacks a `spec` mapping, or
its `spec.containers` is missing or not a sequence; only when
`spec.template.spec.containers` exists as a (possibly empty) sequence does
priority 1 win and the fallback go unconsulted. -/
theorem extract_containers_priority (resource : K8sResource) :
    (∀ l, templateSpecContainers resource = some l →
        extractContainersFromResource resource = parseContainers l) ∧
    (templateSpecContainers resource = none →
        extractContainersFromResource resource =
          (match resource.Spec with
           | none => []
           | some spec => extractFromSpecContainers spec)) := by
  rcases hspec : resource.Spec with _ | spec
  · refine ⟨?_, ?_⟩
    · intro l hl
      rw [templateSpecContainers, hspec] at hl
      cases hl
    · intro _
      simp only [extractContainersFromResource, hspec]
  · rcases htmpl : asMap (mapLookup spec (str "template")) with _ | template
    · refine ⟨?_, ?_⟩
      · intro l hl
        rw [templateSpecContainers, hspec] at hl
        simp only [Option.some_bind, htmpl, Option.none_bind] at hl
        cases hl
      · intro _
        simp only [extractContainersFromResource, hspec, htmpl]
    · rcases htspec : asMap (mapLookup template (str "spec")) with _ | tspec
      · refine ⟨?_, ?_⟩
        · intro l hl
          rw [templateSpecContainers, hspec] at hl
          simp only [Option.some_bind, htmpl, htspec, Option.none_bind] at hl
          cases hl
        · intro _
          simp only [extractContainersFromResource, hspec, htmpl, htspec]
      · rcases hseq : asSeq (mapLookup tspec (str "containers")) with _ | containerList
        · refine ⟨?_, ?_⟩
          · intro l hl
            rw [templateSpecContainers, hspec] at hl
            simp only [Option.some_bind, htmpl, htspec, hseq] at hl
            cases hl
          · intro _
            simp only [extractContainersFromResource, hspec, htmpl, htspec, hseq]
        · refine ⟨?_, ?_⟩
          · intro l hl
            rw [templateSpecContainers, hspec] at hl
            simp only [Option.some_bind, htmpl, htspec, hseq, Option.some.injEq] at hl
            subst hl
            simp only [extractContainersFromResource, hspec, htmpl, htspec, hseq]
          · intro hl
            rw [templateSpecContainers, hspec] at hl
            simp only [Option.some_bind, htmpl, htspec, hseq] at hl
            cases hl

/-- C3 witness: `resTemplateOnly` has a `template` key but its chain yields
no sequence, so by the amended theorem the result is the `spec.containers`
fallback (which is empty here). -/
theorem extract_containers_priority_witness :
    extractContainersFromResource resTemplateOnly =
      (match resTemplateOnly.Spec with
       | none => []
       | some spec => extractFromSpecContainers spec) :=
  (extract_containers_priority resTemplateOnly).2 rfl

/-! ## Claim C5: per-document severity aggregation -/

/-- C5: for one document's violations, `ReportViolations` returns ERROR if
any violation has severity ERROR, else WARN if any has severity WARN, else
OK; an empty list yields OK. -/
theorem report_violations_severity (violations : List Violation) :
    (ReportViolations violations = ExitError ↔
       ∃ v ∈ violations, v.Severity = str "ERROR") ∧
    (ReportViolations violations = ExitWarn ↔
       (¬ ∃ v ∈ violations, v.Severity = str "ERROR") ∧
       ∃ v ∈ violations, v.Severity = str "WARN") ∧
    (ReportViolations violations = ExitOK ↔
       (¬ ∃ v ∈ violations, v.Severity = str "ERROR") ∧
       ¬ ∃ v ∈ violations, v.Severity = str "WARN") ∧
    ReportViolations ([] : List Violation) = ExitOK := by
  have hE : (violations.any fun v => decide (v.Severity = str "ERROR")) = true ↔
      ∃ v ∈ violations, v.Severity = str "ERROR" := by
    simp [List.any_eq_true]
  have hW : (violations.any fun v => decide (v.Severity = str "WARN")) = true ↔
      ∃ v ∈ violations, v.Severity = str "WARN" := by
    simp [List.any_eq_true]
  by_cases hnil : violations = []
  · subst hnil
    refine ⟨?_, ?_, ?_, rfl⟩ <;>
      simp [ReportViolations, ExitOK, ExitWarn, ExitError]
  · by_cases he : (violations.any fun v => decide (v.Severity = str "ERROR")) = true
    · have hex := hE.mp he
      have hR : ReportViolations violations = ExitError := by
        simp only [ReportViolations, if_neg hnil]
        simp [he]
      rw [hR]
      refine ⟨?_, ?_, ?_, rfl⟩ <;>
        simp [ExitOK, ExitWarn, ExitError, hex]
    · have hnoE : ¬ ∃ v ∈ violations, v.Severity = str "ERROR" := by
        rw [← hE]
        exact he
      have hef : (violations.any fun v => decide (v.Severity = str "ERROR")) = false := by
        simp only [Bool.not_eq_true] at he
        exact he
      by_cases hw : (violations.any fun v => decide (v.Severity = str "WARN")) = true
      · have hexw := hW.mp hw
        have hR : ReportViolations violations = ExitWarn := by
          simp only [ReportViolations, if_neg hnil]
          simp [hef, hw]
        rw [hR]
        refine ⟨?_, ?_, ?_, rfl⟩ <;>
          simp [ExitOK, ExitWarn, ExitError, hnoE, hexw]
      · have hnoW : ¬ ∃ v ∈ violations, v.Severity = str "WARN" := by
          rw [← hW]
          exact hw
        have hwf : (violations.any fun v => decide (v.Severity = str "WARN")) = false := by
          simp only [Bool.not_eq_true] at hw
          exact hw
        have hR : ReportViolations violations = ExitOK := by
          simp only [ReportViolations, if_neg hnil]
          simp [hef, hwf]
        rw [hR]
        refine ⟨?_, ?_, ?_, rfl⟩ <;>
          simp [ExitOK, ExitWarn, ExitError, hnoE, hnoW]

/-! ## Claim C6: run-level severity is an order-invariant max; exit codes -/

theorem sevStep_eq_max (a b : Nat) : sevStep a b = max a b := by
  rw [sevStep]
  rcases Nat.lt_or_ge a b with h | h
  · rw [if_pos h, Nat.max_eq_right (Nat.le_of_lt h)]
  · rw [if_neg (Nat.not_lt.mpr h), Nat.max_eq_left h]

theorem foldl_sevStep_eq_max_foldr (l : List Nat) :
    ∀ acc : Nat, l.foldl sevStep acc = max acc (l.foldr max ExitOK) := by
  induction l with
  | nil =>
    intro acc
    simp [ExitOK]
  | cons x xs ih =>
    intro acc
    simp only [List.foldl_cons, List.foldr_cons, ih, sevStep_eq_max, Nat.max_assoc]

theorem foldr_max_perm {l l' : List Nat} (h : l.Perm l') :
    l.foldr max ExitOK = l'.foldr max ExitOK := by
  induction h with
  | nil => rfl
  | cons x _ ih => simp [ih]
  | swap x y t => simp [Nat.max_left_comm]
  | trans _ _ ih1 ih2 => exact ih1.trans ih2

/-- C6: the run-level severity is the maximum of the per-document severities
under OK < WARN < ERROR, invariant under reordering of the documents; the
accumulation step is associative and commutative with identity OK; and the
process exit code is 0 when the run severity is OK, 1 when WARN, 2 when
ERROR. -/
theorem run_severity_monoid (l l' : List Nat) (h : l.Perm l') :
    runSeverity l = l.foldr max ExitOK ∧
    runSeverity l = runSeverity l' ∧
    (∀ a b c : Nat, sevStep (sevStep a b) c = sevStep a (sevStep b c)) ∧
    (∀ a b : Nat, sevStep a b = sevStep b a) ∧
    (∀ a : Nat, sevStep ExitOK a = a ∧ sevStep a ExitOK = a) ∧
    (runSeverity l = ExitOK → processExitCode l = 0) ∧
    (runSeverity l = ExitWarn → processExitCode l = 1) ∧
    (runSeverity l = ExitError → processExitCode l = 2) := by
  have hfold : ∀ m : List Nat, runSeverity m = m.foldr max ExitOK := by
    intro m
    rw [runSeverity, foldl_sevStep_eq_max_foldr]
    simp [ExitOK]
  refine ⟨hfold l, ?_, ?_, ?_, ?_, ?_, ?_, ?_⟩
  · rw [hfold l, hfold l', foldr_max_perm h]
  · intro a b c
    simp [sevStep_eq_max, Nat.max_assoc]
  · intro a b
    simp [sevStep_eq_max, Nat.max_comm]
  · intro a
    simp [sevStep_eq_max, ExitOK]
  · intro hok
    rw [processExitCode, hok, ExitOK]
  · intro hwarn
    rw [processExitCode, hwarn, ExitWarn]
  · intro herr
    rw [processExitCode, herr, ExitError]

/-- C6 witness: a concrete permutation of document severities, with the
max, the invariance, and the exit code evaluated. -/
theorem run_severity_monoid_witness :
    runSeverity [2, 0, 1] = ([2, 0, 1] : List Nat).foldr max ExitOK ∧
    runSeverity [2, 0, 1] = runSeverity [1, 0, 2] ∧
    processExitCode [2, 0, 1] = 2 :=
  ⟨(run_severity_monoid [2, 0, 1] [1, 0, 2] (by decide)).1,
   (run_severity_monoid [2, 0, 1] [1, 0, 2] (by decide)).2.1,
   (run_severity_monoid [2, 0, 1] [1, 0, 2] (by decide)).2.2.2.2.2.2.2 (by decide)⟩

/-! ## Claim C8: the built-in default rule set -/

/-- C8: when no external rule set is supplied the built-in
`GetDefaultConfig` is used, and it contains exactly four rules with exactly
these severities and ordered condition lists: the latest-tag rule (ERROR)
with `image_tag_equals:latest` then `image_tag_missing`; the
resource-requests rule (WARN) with `missing_cpu_requests` then
`missing_memory_requests`; the resource-limits rule (WARN) with
`missing_cpu_limits` then `missing_memory_limits`; and the root rule
(ERROR) with `missing_security_context`, `run_as_non_root_false`,
`run_as_user_zero`. -/
theorem default_rule_set_contents :
    selectRuleConfig none = GetDefaultConfig ∧
    GetDefaultConfig.Rules.length = 4 ∧
    GetDefaultConfig.Rules.map Rule.Severity
      = [str "ERROR", str "WARN", str "WARN", str "ERROR"] ∧
    GetDefaultConfig.Rules.map Rule.Conditions
      = [ [str "image_tag_equals:latest", str "image_tag_missing"]
        , [str "missing_cpu_requests", str "missing_memory_requests"]
        , [str "missing_cpu_limits", str "missing_memory_limits"]
        , [str "missing_security_context", str "run_as_non_root_false",
           str "run_as_user_zero"] ] :=
  ⟨rfl, rfl, rfl, rfl⟩

/-! ## Claim C10: present-but-uninformative securityContext -/

/-- C10: for a container whose `securityContext` is present as a mapping
(the empty mapping included) in which `runAsNonRoot` is absent or not a
bool and `runAsUser` is absent or not 0, all three root conditions are
false, so the default disallow-root rule emits no Violation — while a
container with `securityContext` entirely absent does trigger it. -/
theorem security_context_present_no_root_violation (m : YamlMap) (c c' : Container)
    (hc : c.SecurityContext = some (parseSecurityContext m))
    (hc' : c'.SecurityContext = none)
    (hnr : asBool (mapLookup m (str "runAsNonRoot")) = none)
    (hru : asInt (mapLookup m (str "runAsUser")) ≠ some 0) :
    missingSecurityContext c = false ∧
    runAsNonRootFalse c = false ∧
    runAsUserZero c = false ∧
    (∀ rule ∈ GetDefaultConfig.Rules, rule.Name = str "no-root-containers" →
       evaluateRule rule c = [] ∧ evaluateRule rule c' ≠ []) := by
  have h1 : missingSecurityContext c = false := by
    rw [missingSecurityContext, hc]
    simp
  have h2 : runAsNonRootFalse c = false := by
    rw [runAsNonRootFalse, hc]
    simp only [parseSecurityContext, hnr]
  have h3 : runAsUserZero c = false := by
    rw [runAsUserZero, hc]
    simp only [parseSecurityContext]
    rcases hru' : asInt (mapLookup m (str "runAsUser")) with _ | n
    · rfl
    · have hn : ¬ n = 0 := by
        intro h0
        exact hru (by rw [hru', h0])
      simp [hn]
  refine ⟨h1, h2, h3, ?_⟩
  intro rule hmem hname
  have hrule : rule = GetDefaultConfig.Rules.getD 3 rule := by
    simp only [GetDefaultConfig, List.mem_cons, List.not_mem_nil, or_false] at hmem
    rcases hmem with h | h | h | h
    · subst h
      exact absurd hname (by decide)
    · subst h
      exact absurd hname (by decide)
    · subst h
      exact absurd hname (by decide)
    · subst h
      rfl
  rw [hrule]
  constructor
  · show evaluateRuleConds _ c _ = []
    simp only [GetDefaultConfig, List.getD, List.getElem?_cons_succ,
      List.getElem?_cons_zero, Option.getD_some, evaluateRuleConds, checkCondition]
    have e1 : checkCondition (str "missing_security_context") c = false := by
      rw [checkCondition]
      have : splitColon (str "missing_security_context")
          = [str "missing_security_context"] := by decide
      rw [this]
      show dispatchCondition (str "missing_security_context") [] c = false
      rw [dispatchCondition]
      rw [if_neg (by decide), if_neg (by decide), if_neg (by decide), if_neg (by decide),
        if_neg (by decide), if_neg (by decide), if_pos rfl]
      exact h1
    have e2 : checkCondition (str "run_as_non_root_false") c = false := by
      rw [checkCondition]
      have : splitColon (str "run_as_non_root_false")
          = [str "run_as_non_root_false"] := by decide
      rw [this]
      show dispatchCondition (str "run_as_non_root_false") [] c = false
      rw [dispatchCondition]
      rw [if_neg (by decide), if_neg (by decide), if_neg (by decide), if_neg (by decide),
        if_neg (by decide), if_neg (by decide), if_neg (by decide), if_pos rfl]
      exact h2
    have e3 : checkCondition (str "run_as_user_zero") c = false := by
      rw [checkCondition]
      have : splitColon (str "run_as_user_zero") = [str "run_as_user_zero"] := by decide
      rw [this]
      show dispatchCondition (str "run_as_user_zero") [] c = false
      rw [dispatchCondition]
      rw [if_neg (by decide), if_neg (by decide), if_neg (by decide), if_neg (by decide),
        if_neg (by decide), if_neg (by decide), if_neg (by decide), if_neg (by decide),
        if_pos rfl]
      exact h3
    show evaluateRuleConds _ c
        [str "missing_security_context", str "run_as_non_root_false",
         str "run_as_user_zero"] = []
    rw [evaluateRuleConds, e1]
    simp only [Bool.false_eq_true, if_false]
    rw [evaluateRuleConds, e2]
    simp only [Bool.false_eq_true, if_false]
    rw [evaluateRuleConds, e3]
    simp only [Bool.false_eq_true, if_false]
    rfl
  · have hmsc : checkCondition (str "missing_security_context") c' = true := by
      rw [checkCondition]
      have : splitColon (str "missing_security_context")
          = [str "missing_security_context"] := by decide
      rw [this]
      show dispatchCondition (str "missing_security_context") [] c' = true
      rw [dispatchCondition]
      rw [if_neg (by decide), if_neg (by decide), if_neg (by decide), if_neg (by decide),
        if_neg (by decide), if_neg (by decide), if_pos rfl]
      rw [missingSecurityContext, hc']
      simp
    show evaluateRuleConds _ c'
        [str "missing_security_context", str "run_as_non_root_false",
         str "run_as_user_zero"] ≠ []
    rw [evaluateRuleConds, hmsc]
    simp

/-- A container whose securityContext was parsed from the empty mapping. -/
def emptySecCtxContainer : Container :=
  { Name := str "app"
    Image := str "nginx:1.21"
    Resources := none
    SecurityContext := some (parseSecurityContext []) }

/-- A container with no securityContext at all. -/
def noSecCtxContainer : Container :=
  { Name := str "app"
    Image := str "nginx:1.21"
    Resources := none
    SecurityContext := none }

/-- C10 witness: the empty `securityContext: {}` mapping — no root
condition fires and the default disallow-root rule emits nothing, while the
container without any securityContext does trigger it. -/
theorem security_context_present_no_root_violation_witness :
    missingSecurityContext emptySecCtxContainer = false ∧
    runAsNonRootFalse emptySecCtxContainer = false ∧
    runAsUserZero emptySecCtxContainer = false ∧
    (∀ rule ∈ GetDefaultConfig.Rules, rule.Name = str "no-root-containers" →
       evaluateRule rule emptySecCtxContainer = [] ∧
       evaluateRule rule noSecCtxContainer ≠ []) :=
  security_context_present_no_root_violation [] emptySecCtxContainer noSecCtxContainer
    rfl rfl rfl (by decide)

/-- C2 witness: the rule-major split of the default rule set's output on a
concrete resource, at split point 2. -/
theorem EvaluateResource_rule_major_witness :
    EvaluateResource GetDefaultConfig resTemplateAndContainers
      = EvaluateResource { Rules := GetDefaultConfig.Rules.take 2 } resTemplateAndContainers
        ++ EvaluateResource { Rules := GetDefaultConfig.Rules.drop 2 } resTemplateAndContainers :=
  (EvaluateResource_rule_major GetDefaultConfig resTemplateAndContainers 2).2

/-- A single ERROR violation, for the C5 witness. -/
def errorViolation : Violation :=
  { Severity := str "ERROR"
    Message := str "Container 'app' uses 'latest' image tag"
    Rule := str "no-latest-image" }

/-- C5 witness: a list holding one ERROR violation aggregates to ERROR. -/
theorem report_violations_severity_witness :
    ReportViolations [errorViolation] = ExitError :=
  (report_violations_severity [errorViolation]).1.mpr ⟨errorViolation, by decide, by decide⟩
